import Mathlib

/-!
Verification development for the helping-hand chess-assistant core:
a shallow embedding of `src/core/board.py` (BoardHandler), `src/core/game.py`
(GameManager) and `src/config/manager.py` (ConfigManager), with theorems about
synchronization, turn arbitration, move gating and delay clamping.

The legality oracle (the `python-chess` library) is an external collaborator;
it is modelled as a parameter `Oracle` whose `parse_san` returns `some move`
exactly when the text is parseable and legal in the given position (python-chess
`parse_san` raises on both unparseable and illegal input, hence the contract
field `parse_legal`).  Side effects on the external channel (arrow drawing,
keystrokes, diagnostic captures, engine queries) are recorded as an explicit
trace of `Action`s.
-/

namespace HelpingHand

/-- The legality oracle: `python-chess`'s parsing/legality/push interface,
consumed but not implemented by the core.  `parse_san p t = some m` means the
SAN text `t` denotes the legal move `m` in position `p`; `none` covers both
unparseable and illegal text (python-chess raises an exception in both cases,
which is why `parse_legal` holds for the real oracle). -/
structure Oracle (Pos Move : Type) where
  parse_san : Pos → String → Option Move
  legal : Pos → Move → Bool
  push_move : Pos → Move → Pos
  parse_legal : ∀ p t m, parse_san p t = some m → legal p m = true

/-- `chess.Board` as used by the core: a position plus the move stack
(history). -/
structure Board (Pos Move : Type) where
  pos : Pos
  move_stack : List Move
deriving DecidableEq

variable {Pos Move : Type}

/-- `chess.Board.push`: unconditionally applies a move and appends it to the
move stack. -/
def Board.push (O : Oracle Pos Move) (b : Board Pos Move) (m : Move) : Board Pos Move :=
  ⟨O.push_move b.pos m, b.move_stack ++ [m]⟩

/-- `chess.Board.push_san`: parse SAN text in the current position and push the
resulting move; `none` models the exception raised on unparseable or illegal
text. -/
def Board.push_san (O : Oracle Pos Move) (b : Board Pos Move) (t : String) :
    Option (Board Pos Move) :=
  (O.parse_san b.pos t).map (Board.push O b)

/-- Externally visible side effects of the core, recorded in order. -/
inductive Action (Move : Type) where
  | clearArrow
  | drawArrow (m : Move)
  | inputReturn
  | inputClear
  | inputType (m : Move)
  | saveDebug (ply : Nat)
  | debugStructure
  | engineQuery
  | keyboardReset
deriving DecidableEq

/-- Actions performed on the move input element of the external channel. -/
def Action.isInput : Action Move → Bool
  | .inputReturn => true
  | .inputClear => true
  | .inputType _ => true
  | _ => false

/-- Arrow-drawing actions. -/
def Action.isDraw : Action Move → Bool
  | .drawArrow _ => true
  | _ => false

/-- Engine (best-move oracle) queries. -/
def Action.isEngineQuery : Action Move → Bool
  | .engineQuery => true
  | _ => false

/-- Diagnostic captures (`DebugUtils.save_debug_info`). -/
def Action.isSaveDebug : Action Move → Bool
  | .saveDebug _ => true
  | _ => false

/-- Python's `str.strip()`: drop whitespace from both ends (defined over the
character list so that it evaluates by structural recursion). -/
def strip (s : String) : String :=
  ⟨((s.data.dropWhile Char.isWhitespace).reverse.dropWhile Char.isWhitespace).reverse⟩

/-- The external channel's move list: the element text reported at each ply
index, `none` when no element is present. -/
def Slots : Type := Nat → Option String

/-- `BoardHandler.find_move_by_alternatives`: returns the move element at index
`n` only when its stripped text is non-empty (every lookup strategy in the
source checks `if move_text:` on the stripped text before returning the
element). -/
def find_move_by_alternatives (slots : Slots) (n : Nat) : Option String :=
  match slots n with
  | some t => if strip t = "" then none else some t
  | none => none

/-- `BoardHandler.check_for_move`: the stripped element text at index `n`,
excluding empty and `"..."` placeholder texts. -/
def check_for_move (slots : Slots) (n : Nat) : Option String :=
  match find_move_by_alternatives slots n with
  | some t => if strip t = "" ∨ strip t = "..." then none else some (strip t)
  | none => none

/-- `BoardHandler.validate_and_push_move`: parse the text, check legality, and
push on success; on a parse failure or an illegal move, capture diagnostics and
return `false` with the board untouched.  Result: (return value, board after,
emitted actions). -/
def validate_and_push_move (O : Oracle Pos Move) (b : Board Pos Move)
    (move_text : String) (move_number : Nat) (is_our_move : Bool) :
    Bool × Board Pos Move × List (Action Move) :=
  match O.parse_san b.pos move_text with
  | some m =>
    if O.legal b.pos m then
      (true, Board.push O b m, [])
    else
      (false, b, [.saveDebug move_number])
  | none => (false, b, [.saveDebug move_number])

/-- The `while temp_move_number < 999` loop of
`BoardHandler.get_previous_moves`, with `fuel = 999 - temp_move_number`.
Each iteration looks the current ply up; a `"..."`-placeholder (or empty) text
is skipped, a parseable text is pushed, a parse failure captures diagnostics
and stops, and an absent element stops (capturing diagnostics when fewer than
three plies were seen). -/
def sync_loop (O : Oracle Pos Move) (slots : Slots) :
    Nat → Board Pos Move → Nat → List (Action Move) →
    Nat × Board Pos Move × List (Action Move)
  | 0, b, temp, acts => (temp, b, acts)
  | fuel + 1, b, temp, acts =>
    match find_move_by_alternatives slots temp with
    | some t =>
      if strip t = "" ∨ strip t = "..." then
        sync_loop O slots fuel b (temp + 1) acts
      else
        match Board.push_san O b (strip t) with
        | some b' => sync_loop O slots fuel b' (temp + 1) acts
        | none => (temp, b, acts ++ [.saveDebug temp])
    | none =>
      if temp = 1 then (temp, b, acts)
      else if temp ≤ 3 then (temp, b, acts ++ [.debugStructure, .saveDebug temp])
      else (temp, b, acts)

/-- `BoardHandler.get_previous_moves`: board synchronization.  Returns the
next-expected move number, the updated board and the emitted actions. -/
def get_previous_moves (O : Oracle Pos Move) (slots : Slots) (b : Board Pos Move) :
    Nat × Board Pos Move × List (Action Move) :=
  match find_move_by_alternatives slots 1 with
  | none => (1, b, [])
  | some _ => sync_loop O slots 998 b 1 []

/-- A concrete instance of the legality oracle for witnesses: positions are the
list of UCI moves played from the standard start, and a small opening book
records the true python-chess facts used by the spec's scenarios ("e4", "e5",
"Nf3" are legal in sequence from the start; "Zz9" is never parseable). -/
def demoParse : List String → String → Option String
  | [], "e4" => some "e2e4"
  | ["e2e4"], "e5" => some "e7e5"
  | ["e2e4", "e7e5"], "Nf3" => some "g1f3"
  | _, _ => none

/-- Legal-move membership for the concrete oracle. -/
def demoLegal : List String → String → Bool
  | [], "e2e4" => true
  | ["e2e4"], "e7e5" => true
  | ["e2e4", "e7e5"], "g1f3" => true
  | _, _ => false

/-- The concrete oracle instance. -/
def demoO : Oracle (List String) String :=
  ⟨demoParse, demoLegal, fun p m => p ++ [m], by
    intro p t m h
    unfold demoParse at h
    split at h
    · cases h; decide
    · cases h; decide
    · cases h; decide
    · exact absurd h (by simp)⟩

/-- A fresh board (standard position, empty history) for the concrete oracle. -/
def demoBoard : Board (List String) String := ⟨[], []⟩

/-- Mutable per-game state of `GameManager` relevant to the core: the board and
the suggestion-tracking fields `_current_suggestion` and `_arrow_drawn`. -/
structure GameState (Pos Move : Type) where
  board : Board Pos Move
  current_suggestion : Option Move
  arrow_drawn : Bool
deriving DecidableEq

/-- The actions emitted by `BoardHandler.execute_move`: clear the arrow layer,
then on the move input element send a return keystroke, clear it, and type the
move text (the humanization delays in between are timing-only). -/
def execute_move_actions (move : Move) : List (Action Move) :=
  [.clearArrow, .inputReturn, .inputClear, .inputType move]

/-- `GameManager._is_our_turn`: the interface-derived signal
(`BoardHandler.is_our_turn_via_interface`) wins whenever it is definite, even
against the board-derived signal; the board-derived signal
(`board.turn` matching our color) is the fallback.  `white_to_move` is
`self.board.turn`. -/
def is_our_turn (interface_turn : Option Bool) (white_to_move : Bool)
    (our_color : String) : Bool :=
  let board_turn := (white_to_move && (our_color == "W")) ||
    (!white_to_move && (our_color == "B"))
  match interface_turn with
  | some it => if it != board_turn then it else it
  | none => board_turn

/-- `GameManager._execute_auto_move`: optionally draw the arrow, submit through
`execute_move`, push the move and advance the move number. -/
def execute_auto_move (O : Oracle Pos Move) (show_arrow : Bool) (move : Move)
    (move_number : Nat) (s : GameState Pos Move) :
    GameState Pos Move × Nat × List (Action Move) :=
  let acts := if show_arrow then [Action.drawArrow move] else []
  ({ s with board := Board.push O s.board move }, move_number + 1,
    acts ++ execute_move_actions move)

/-- `GameManager._handle_manual_move`: track the current suggestion, draw the
arrow at most once per suggestion, and only when the gate key is asserted
submit through `execute_move`, reset the keyboard latch, push the move and
advance the move number; otherwise leave everything unchanged. -/
def handle_manual_move [DecidableEq Move] (O : Oracle Pos Move)
    (show_arrow key_pressed : Bool) (move : Move) (move_number : Nat)
    (s : GameState Pos Move) : GameState Pos Move × Nat × List (Action Move) :=
  let s1 := if s.current_suggestion ≠ some move then
    { s with current_suggestion := some move, arrow_drawn := false } else s
  let draw := show_arrow && !s1.arrow_drawn
  let s2 := if draw then { s1 with arrow_drawn := true } else s1
  let acts : List (Action Move) := if draw then [.drawArrow move] else []
  if key_pressed then
    (⟨Board.push O s2.board move, none, false⟩, move_number + 1,
      acts ++ execute_move_actions move ++ [.keyboardReset])
  else
    (s2, move_number, acts)

/-- `GameManager._handle_our_turn`: first check whether a move text is already
observed at the current move number and absorb it via
`validate_and_push_move`; only when none is observed, consult the engine and
hand the suggestion to the autoplay or manual path. -/
def handle_our_turn [DecidableEq Move] (O : Oracle Pos Move) (slots : Slots)
    (engine : Pos → Move) (autoplay show_arrow key_pressed : Bool)
    (s : GameState Pos Move) (move_number : Nat) :
    GameState Pos Move × Nat × List (Action Move) :=
  match check_for_move slots move_number with
  | some t =>
    let r := validate_and_push_move O s.board t move_number true
    if r.1 then
      ({ s with board := r.2.1 }, move_number + 1, Action.clearArrow :: r.2.2)
    else
      ({ s with board := r.2.1 }, move_number, Action.clearArrow :: r.2.2)
  | none =>
    let m := engine s.board.pos
    if autoplay then
      let r := execute_auto_move O show_arrow m move_number s
      (r.1, r.2.1, Action.engineQuery :: r.2.2)
    else
      let r := handle_manual_move O show_arrow key_pressed m move_number s
      (r.1, r.2.1, Action.engineQuery :: r.2.2)

/-- `GameManager._handle_opponent_turn`: clear the arrow, and when an
opponent's move text is observed at the current move number absorb it via
`validate_and_push_move`, advancing the move number exactly on success. -/
def handle_opponent_turn (O : Oracle Pos Move) (slots : Slots)
    (s : GameState Pos Move) (move_number : Nat) :
    GameState Pos Move × Nat × List (Action Move) :=
  match check_for_move slots move_number with
  | some t =>
    let r := validate_and_push_move O s.board t move_number false
    if r.1 then
      ({ s with board := r.2.1 }, move_number + 1, Action.clearArrow :: r.2.2)
    else
      (s, move_number, Action.clearArrow :: r.2.2)
  | none => (s, move_number, [Action.clearArrow])

/-- Repeated ticks of `_handle_manual_move` with the gate key never asserted,
threading state and move number and concatenating the emitted actions. -/
def iterate_manual_gated [DecidableEq Move] (O : Oracle Pos Move)
    (show_arrow : Bool) (move : Move) :
    Nat → GameState Pos Move → Nat →
    GameState Pos Move × Nat × List (Action Move)
  | 0, s, n => (s, n, [])
  | k + 1, s, n =>
    let r := handle_manual_move O show_arrow false move n s
    let rest := iterate_manual_gated O show_arrow move k r.1 r.2.1
    (rest.1, rest.2.1, r.2.2 ++ rest.2.2)

/-- The `humanization` section of `ConfigManager.defaults`: the built-in
default strings consulted by `ConfigManager.get` when the key is absent from
the loaded configuration file. -/
def humanization_defaults (key : String) : Option String :=
  if key = "min-delay" then some "0.3"
  else if key = "max-delay" then some "1.8"
  else if key = "moving-min-delay" then some "0.5"
  else if key = "moving-max-delay" then some "2.5"
  else if key = "thinking-min-delay" then some "0.8"
  else if key = "thinking-max-delay" then some "3.0"
  else none

/-- The environment of `ConfigManager`'s delay accessors: the loaded
configuration file's `humanization` section, and Python's `float()` parsing and
`str()` printing of floats (floats modelled as rationals, parsing as a partial
function that fails exactly where `float()` raises). -/
structure DelayConfig where
  humanization : String → Option String
  parse_float : String → Option ℚ
  float_str : ℚ → String

/-- `ConfigManager.get` restricted to the `humanization` section: the file's
value when the option exists, else the built-in default, else the caller's
fallback. -/
def config_get (c : DelayConfig) (key fallback : String) : String :=
  match c.humanization key with
  | some v => v
  | none =>
    match humanization_defaults key with
    | some v => v
    | none => fallback

/-- `ConfigManager._get_delay_value`: parse the configured string and clamp to
`[0.1, 10.0]`; on a parse failure return the caller-supplied default. -/
def get_delay_value (c : DelayConfig) (key : String) (default : ℚ) : ℚ :=
  let value := config_get c key (c.float_str default)
  match c.parse_float value with
  | some d => max (1/10) (min 10 d)
  | none => default

/-- `ConfigManager.get_general_delays`. -/
def get_general_delays (c : DelayConfig) : ℚ × ℚ :=
  (get_delay_value c "min-delay" (3/10), get_delay_value c "max-delay" (9/5))

/-- `ConfigManager.get_moving_delays`. -/
def get_moving_delays (c : DelayConfig) : ℚ × ℚ :=
  (get_delay_value c "moving-min-delay" (1/2), get_delay_value c "moving-max-delay" (5/2))

/-- `ConfigManager.get_thinking_delays`. -/
def get_thinking_delays (c : DelayConfig) : ℚ × ℚ :=
  (get_delay_value c "thinking-min-delay" (4/5), get_delay_value c "thinking-max-delay" 3)

/-- A concrete channel: "e4", a "..." placeholder, "e5", then no element. -/
def slotsPlaceholder : Slots := fun n =>
  if n = 1 then some "e4"
  else if n = 2 then some "..."
  else if n = 3 then some "e5"
  else none

/-- A concrete channel: "e4", "e5", "Nf3", then no element. -/
def slotsClean : Slots := fun n =>
  if n = 1 then some "e4"
  else if n = 2 then some "e5"
  else if n = 3 then some "Nf3"
  else none

/-- A concrete channel: "e4" then the unparseable text "Zz9". -/
def slotsBad : Slots := fun n =>
  if n = 1 then some "e4"
  else if n = 2 then some "Zz9"
  else none

/-- A concrete delay-configuration environment: the file configures
`min-delay = "0.25"` and `max-delay = "abc"`, and `float()` parses the
numeric literals the scenario touches. -/
def demoDelayConfig : DelayConfig :=
  ⟨fun k => if k = "min-delay" then some "0.25"
    else if k = "max-delay" then some "abc" else none,
   fun v => if v = "0.25" then some (1/4)
    else if v = "0.3" then some (3/10)
    else if v = "1.8" then some (9/5)
    else if v = "0.5" then some (1/2)
    else if v = "2.5" then some (5/2)
    else if v = "0.8" then some (4/5)
    else if v = "3.0" then some 3 else none,
   fun _ => "?"⟩

/-- A run description for the synchronization loop: the channel presents, at
plies `temp, temp + 1, ...`, exactly the steps of `steps` — a `none` step is a
slot whose stripped text is the "..." placeholder, and a `some m` step is a
slot whose stripped text parses (against the oracle, in the board reached so
far) to the move `m` — and immediately after them a slot with no element or
with empty stripped text (`find_move_by_alternatives` yields `none` for
both). -/
def PresentsFrom (O : Oracle Pos Move) (slots : Slots) :
    Nat → Board Pos Move → List (Option Move) → Prop
  | temp, _, [] => find_move_by_alternatives slots temp = none
  | temp, b, none :: rest =>
    (∃ t, find_move_by_alternatives slots temp = some t ∧ strip t = "...") ∧
    PresentsFrom O slots (temp + 1) b rest
  | temp, b, some m :: rest =>
    (∃ t, find_move_by_alternatives slots temp = some t ∧ strip t ≠ "" ∧
      strip t ≠ "..." ∧ O.parse_san b.pos (strip t) = some m) ∧
    PresentsFrom O slots (temp + 1) (Board.push O b m) rest

/-- Push the applied moves of a step list onto a board, in order, ignoring the
`none` (placeholder) steps. -/
def pushSteps (O : Oracle Pos Move) (b : Board Pos Move)
    (steps : List (Option Move)) : Board Pos Move :=
  steps.foldl (fun acc step => match step with
    | none => acc
    | some m => Board.push O acc m) b

/-! Unfolding lemmas for `validate_and_push_move` and one step of the
synchronization loop. -/

theorem validate_and_push_move_none (O : Oracle Pos Move) (b : Board Pos Move)
    (t : String) (n : Nat) (f : Bool) (h : O.parse_san b.pos t = none) :
    validate_and_push_move O b t n f = (false, b, [.saveDebug n]) := by
  simp [validate_and_push_move, h]

theorem validate_and_push_move_some (O : Oracle Pos Move) (b : Board Pos Move)
    (t : String) (n : Nat) (f : Bool) (m : Move) (h : O.parse_san b.pos t = some m) :
    validate_and_push_move O b t n f = (true, Board.push O b m, []) := by
  simp [validate_and_push_move, h, O.parse_legal b.pos t m h]

theorem sync_loop_skip (O : Oracle Pos Move) (slots : Slots) (fuel : Nat)
    (b : Board Pos Move) (temp : Nat) (acts : List (Action Move)) {t : String}
    (h : find_move_by_alternatives slots temp = some t)
    (hp : strip t = "" ∨ strip t = "...") :
    sync_loop O slots (fuel + 1) b temp acts =
      sync_loop O slots fuel b (temp + 1) acts := by
  simp only [sync_loop, h]
  rw [if_pos hp]

theorem sync_loop_apply (O : Oracle Pos Move) (slots : Slots) (fuel : Nat)
    (b b' : Board Pos Move) (temp : Nat) (acts : List (Action Move)) {t : String}
    (h : find_move_by_alternatives slots temp = some t)
    (hp : ¬(strip t = "" ∨ strip t = "..."))
    (hb : Board.push_san O b (strip t) = some b') :
    sync_loop O slots (fuel + 1) b temp acts =
      sync_loop O slots fuel b' (temp + 1) acts := by
  simp only [sync_loop, h]
  rw [if_neg hp, hb]

theorem sync_loop_fail (O : Oracle Pos Move) (slots : Slots) (fuel : Nat)
    (b : Board Pos Move) (temp : Nat) (acts : List (Action Move)) {t : String}
    (h : find_move_by_alternatives slots temp = some t)
    (hp : ¬(strip t = "" ∨ strip t = "..."))
    (hb : Board.push_san O b (strip t) = none) :
    sync_loop O slots (fuel + 1) b temp acts =
      (temp, b, acts ++ [.saveDebug temp]) := by
  simp only [sync_loop, h]
  rw [if_neg hp, hb]

theorem sync_loop_stop_late (O : Oracle Pos Move) (slots : Slots) (fuel : Nat)
    (b : Board Pos Move) (temp : Nat) (acts : List (Action Move))
    (h : find_move_by_alternatives slots temp = none) (h3 : 3 < temp) :
    sync_loop O slots (fuel + 1) b temp acts = (temp, b, acts) := by
  simp only [sync_loop, h]
  rw [if_neg (by omega), if_neg (by omega)]

/-- C1: for every move text that is unparseable or illegal in the current
position, `BoardHandler.validate_and_push_move` returns `False` and leaves the
board's move stack unchanged; for every parseable-and-legal move text it
returns `True` and appends exactly that one move to the history. -/
theorem C1_validate_and_push_atomic (O : Oracle Pos Move) (b : Board Pos Move)
    (t : String) (n : Nat) (f : Bool) :
    (O.parse_san b.pos t = none →
      (validate_and_push_move O b t n f).1 = false ∧
      (validate_and_push_move O b t n f).2.1 = b) ∧
    (∀ m, O.parse_san b.pos t = some m →
      (validate_and_push_move O b t n f).1 = true ∧
      (validate_and_push_move O b t n f).2.1.move_stack = b.move_stack ++ [m]) := by
  constructor
  · intro h
    rw [validate_and_push_move_none O b t n f h]
    exact ⟨rfl, rfl⟩
  · intro m h
    rw [validate_and_push_move_some O b t n f m h]
    exact ⟨rfl, rfl⟩

/-- Witness for C1: the unparseable text "Zz9" is rejected with the board
untouched, and the legal text "e4" is pushed as exactly one move. -/
theorem C1_witness :
    ((validate_and_push_move demoO demoBoard "Zz9" 1 true).1 = false ∧
      (validate_and_push_move demoO demoBoard "Zz9" 1 true).2.1 = demoBoard) ∧
    ((validate_and_push_move demoO demoBoard "e4" 1 true).1 = true ∧
      (validate_and_push_move demoO demoBoard "e4" 1 true).2.1.move_stack =
        demoBoard.move_stack ++ ["e2e4"]) :=
  ⟨(C1_validate_and_push_atomic demoO demoBoard "Zz9" 1 true).1 rfl,
    (C1_validate_and_push_atomic demoO demoBoard "e4" 1 true).2 "e2e4" rfl⟩

/-- C2 (counterexample): on a channel reporting "e4" at ply 1, the placeholder
"..." at ply 2 and "e5" at ply 3, `get_previous_moves` does not stop at the
first placeholder slot: it skips ply 2, applies the ply-3 move, and returns 4
— whereas the claim requires it to stop at ply 2 without skipping any ply. -/
theorem C2_counterexample :
    (get_previous_moves demoO slotsPlaceholder demoBoard).2.1.move_stack =
      ["e2e4", "e7e5"] ∧
    (get_previous_moves demoO slotsPlaceholder demoBoard).1 = 4 ∧
    (get_previous_moves demoO slotsPlaceholder demoBoard).1 ≠ 2 := by
  decide

/-- The move stack accumulated by `pushSteps` is the original stack followed by
exactly the applied (non-placeholder) moves, in order. -/
theorem pushSteps_move_stack (O : Oracle Pos Move) :
    ∀ (steps : List (Option Move)) (b : Board Pos Move),
      (pushSteps O b steps).move_stack = b.move_stack ++ steps.reduceOption := by
  intro steps
  induction steps with
  | nil => intro b; simp [pushSteps]
  | cons head rest ih =>
    intro b
    cases head with
    | none =>
      show (pushSteps O b rest).move_stack = _
      rw [ih b]
      simp
    | some m =>
      show (pushSteps O (Board.push O b m) rest).move_stack = _
      rw [ih (Board.push O b m)]
      simp [Board.push]

/-- Whole-run unfolding of the synchronization loop: on a channel presenting
the steps `steps` from ply `temp` and then stopping, `sync_loop` (given enough
fuel) applies exactly the `some` steps, skips the `none` steps, and returns
`temp + steps.length` with the accordingly pushed board; the stop also records
the source's early-ply diagnostics when it happens at ply 2 or 3. -/
theorem sync_loop_run (O : Oracle Pos Move) (slots : Slots) :
    ∀ (steps : List (Option Move)) (fuel temp : Nat) (b : Board Pos Move)
      (acts : List (Action Move)),
      PresentsFrom O slots temp b steps →
      steps.length + 1 ≤ fuel →
      sync_loop O slots fuel b temp acts =
        (temp + steps.length, pushSteps O b steps,
          if temp + steps.length = 1 then acts
          else if temp + steps.length ≤ 3 then
            acts ++ [.debugStructure, .saveDebug (temp + steps.length)]
          else acts) := by
  intro steps
  induction steps with
  | nil =>
    intro fuel temp b acts h hf
    obtain ⟨f, rfl⟩ : ∃ f, fuel = f + 1 := ⟨fuel - 1, by omega⟩
    simp only [PresentsFrom] at h
    simp only [sync_loop, h, List.length_nil, Nat.add_zero, pushSteps,
      List.foldl_nil]
    split_ifs <;> rfl
  | cons head rest ih =>
    intro fuel temp b acts h hf
    obtain ⟨f, rfl⟩ : ∃ f, fuel = f + 1 := ⟨fuel - 1, by omega⟩
    cases head with
    | none =>
      simp only [PresentsFrom] at h
      obtain ⟨⟨t, hfind, ht⟩, hrest⟩ := h
      rw [sync_loop_skip O slots f b temp acts hfind (Or.inr ht),
        ih f (temp + 1) b acts hrest (by simp at hf ⊢; omega)]
      have harith : temp + 1 + rest.length = temp + (none :: rest).length := by
        simp; omega
      rw [harith]
      rfl
    | some m =>
      simp only [PresentsFrom] at h
      obtain ⟨⟨t, hfind, ht1, ht2, hparse⟩, hrest⟩ := h
      have hps : Board.push_san O b (strip t) = some (Board.push O b m) := by
        simp [Board.push_san, hparse]
      rw [sync_loop_apply O slots f b (Board.push O b m) temp acts hfind
          (not_or.mpr ⟨ht1, ht2⟩) hps,
        ih f (temp + 1) (Board.push O b m) acts hrest (by simp at hf ⊢; omega)]
      have harith : temp + 1 + rest.length = temp + (some m :: rest).length := by
        simp; omega
      rw [harith]
      rfl

/-- C2 (amended): synchronization (`get_previous_moves`) starts from ply 1,
reads and applies each observed move in order, and stops at the first slot
with no element or with empty stripped text, returning the next-expected ply
(one past the presented plies) with the history extended by exactly the
applied moves in order; a slot whose stripped text is the placeholder "..." is
however skipped — the ply counter is incremented without applying a move —
instead of stopping the loop. -/
theorem C2_sync_whole_run (O : Oracle Pos Move) (slots : Slots)
    (b : Board Pos Move) (steps : List (Option Move))
    (hrun : PresentsFrom O slots 1 b steps)
    (hlen : steps.length ≤ 997) :
    ((get_previous_moves O slots b).1 = steps.length + 1 ∧
     (get_previous_moves O slots b).2.1 = pushSteps O b steps ∧
     (get_previous_moves O slots b).2.1.move_stack =
       b.move_stack ++ steps.reduceOption) ∧
    (∀ n t, slots n = some t → strip t = "" →
      find_move_by_alternatives slots n = none) := by
  constructor
  · have hmain : (get_previous_moves O slots b).1 = steps.length + 1 ∧
        (get_previous_moves O slots b).2.1 = pushSteps O b steps := by
      cases steps with
      | nil =>
        simp only [PresentsFrom] at hrun
        simp [get_previous_moves, hrun, pushSteps]
      | cons head rest =>
        have hfind1 : ∃ t, find_move_by_alternatives slots 1 = some t := by
          cases head with
          | none =>
            simp only [PresentsFrom] at hrun
            exact ⟨hrun.1.choose, hrun.1.choose_spec.1⟩
          | some m =>
            simp only [PresentsFrom] at hrun
            exact ⟨hrun.1.choose, hrun.1.choose_spec.1⟩
        obtain ⟨t, ht⟩ := hfind1
        have hrunlem := sync_loop_run O slots (head :: rest) 998 1 b [] hrun
          (by simp at hlen ⊢; omega)
        simp only [get_previous_moves, ht, hrunlem]
        constructor
        · omega
        · trivial
    exact ⟨hmain.1, hmain.2, by rw [hmain.2]; exact pushSteps_move_stack O steps b⟩
  · intro n t hs he
    simp [find_move_by_alternatives, hs, he]

/-- Witness for C2 (amended) on the concrete channel `slotsPlaceholder`
(steps: apply "e4", skip "...", apply "e5", then an absent slot at ply 4):
the run returns ply 4 with history exactly the two applied moves. -/
theorem C2_witness :
    (get_previous_moves demoO slotsPlaceholder demoBoard).1 =
      [some "e2e4", none, some "e7e5"].length + 1 ∧
    (get_previous_moves demoO slotsPlaceholder demoBoard).2.1 =
      pushSteps demoO demoBoard [some "e2e4", none, some "e7e5"] ∧
    (get_previous_moves demoO slotsPlaceholder demoBoard).2.1.move_stack =
      demoBoard.move_stack ++ [some "e2e4", none, some "e7e5"].reduceOption :=
  (C2_sync_whole_run demoO slotsPlaceholder demoBoard
    [some "e2e4", none, some "e7e5"]
    ⟨⟨"e4", rfl, by decide, by decide, rfl⟩,
      ⟨⟨"...", rfl, by decide⟩,
        ⟨⟨"e5", rfl, by decide, by decide, rfl⟩,
          show find_move_by_alternatives slotsPlaceholder (1 + 1 + 1 + 1) = none
            from by decide⟩⟩⟩
    (by decide)).1

/-- C4: if the channel reports a valid move at ply 1 and the unparseable text
"Zz9" at ply 2, `get_previous_moves` stops immediately at the offending ply and
returns 2, the board's history is exactly the one ply-1 move, and the
diagnostic capture (`save_debug_info`) is invoked exactly once. -/
theorem C4_sync_stops_on_bad_text (O : Oracle Pos Move) (slots : Slots)
    (b : Board Pos Move) (v : String) (m : Move)
    (hstack : b.move_stack = [])
    (h1 : slots 1 = some v) (hv1 : strip v ≠ "") (hv2 : strip v ≠ "...")
    (hparse : O.parse_san b.pos (strip v) = some m)
    (h2 : slots 2 = some "Zz9")
    (hbad : O.parse_san (O.push_move b.pos m) "Zz9" = none) :
    get_previous_moves O slots b =
      (2, ⟨O.push_move b.pos m, [m]⟩, [Action.saveDebug 2]) := by
  have hf1 : find_move_by_alternatives slots 1 = some v := by
    simp [find_move_by_alternatives, h1, hv1]
  have hf2 : find_move_by_alternatives slots 2 = some "Zz9" := by
    simp [find_move_by_alternatives, h2]
    decide
  have hb1 : Board.push_san O b (strip v) = some (Board.push O b m) := by
    simp [Board.push_san, hparse]
  have hpush : Board.push O b m = ⟨O.push_move b.pos m, [m]⟩ := by
    simp [Board.push, hstack]
  have hb2 : Board.push_san O ⟨O.push_move b.pos m, [m]⟩ (strip "Zz9") = none := by
    simp [Board.push_san]
    rw [show strip "Zz9" = "Zz9" from by decide]
    simp [hbad]
  rw [get_previous_moves, hf1]
  rw [show (998 : Nat) = 997 + 1 from rfl,
    sync_loop_apply O slots 997 b (Board.push O b m) 1 [] hf1 (by tauto) hb1,
    hpush,
    show (997 : Nat) = 996 + 1 from rfl,
    sync_loop_fail O slots 996 ⟨O.push_move b.pos m, [m]⟩ 2 [] hf2 (by decide) hb2]
  rfl

/-- Witness for C4 on the concrete channel `slotsBad` and the concrete
oracle. -/
theorem C4_witness :
    get_previous_moves demoO slotsBad demoBoard =
      (2, ⟨["e2e4"], ["e2e4"]⟩, [Action.saveDebug 2]) :=
  C4_sync_stops_on_bad_text demoO slotsBad demoBoard "e4" "e2e4" rfl rfl
    (by decide) (by decide) rfl rfl rfl

/-- C5: if the channel returns "e4", "e5", "Nf3" at plies 1-3 and an empty slot
at ply 4, `get_previous_moves` returns 4 and the board's history is exactly
those three moves in order. -/
theorem C5_resync_three_moves (O : Oracle Pos Move) (slots : Slots)
    (b : Board Pos Move) (m1 m2 m3 : Move)
    (hstack : b.move_stack = [])
    (h1 : slots 1 = some "e4") (h2 : slots 2 = some "e5")
    (h3 : slots 3 = some "Nf3") (h4 : slots 4 = none)
    (hp1 : O.parse_san b.pos "e4" = some m1)
    (hp2 : O.parse_san (O.push_move b.pos m1) "e5" = some m2)
    (hp3 : O.parse_san (O.push_move (O.push_move b.pos m1) m2) "Nf3" = some m3) :
    (get_previous_moves O slots b).1 = 4 ∧
    (get_previous_moves O slots b).2.1.move_stack = [m1, m2, m3] := by
  have hf1 : find_move_by_alternatives slots 1 = some "e4" := by
    simp [find_move_by_alternatives, h1]; decide
  have hf2 : find_move_by_alternatives slots 2 = some "e5" := by
    simp [find_move_by_alternatives, h2]; decide
  have hf3 : find_move_by_alternatives slots 3 = some "Nf3" := by
    simp [find_move_by_alternatives, h3]; decide
  have hf4 : find_move_by_alternatives slots 4 = none := by
    simp [find_move_by_alternatives, h4]
  have hb1 : Board.push_san O b (strip "e4") = some (Board.push O b m1) := by
    rw [show strip "e4" = "e4" from by decide]
    simp [Board.push_san, hp1]
  have hb2 : Board.push_san O (Board.push O b m1) (strip "e5") =
      some (Board.push O (Board.push O b m1) m2) := by
    rw [show strip "e5" = "e5" from by decide]
    simp [Board.push_san, Board.push, hp2]
  have hb3 : Board.push_san O (Board.push O (Board.push O b m1) m2) (strip "Nf3") =
      some (Board.push O (Board.push O (Board.push O b m1) m2) m3) := by
    rw [show strip "Nf3" = "Nf3" from by decide]
    simp [Board.push_san, Board.push, hp3]
  rw [get_previous_moves, hf1]
  rw [show (998 : Nat) = 997 + 1 from rfl,
    sync_loop_apply O slots 997 b _ 1 [] hf1 (by decide) hb1,
    show (997 : Nat) = 996 + 1 from rfl,
    sync_loop_apply O slots 996 _ _ 2 [] hf2 (by decide) hb2,
    show (996 : Nat) = 995 + 1 from rfl,
    sync_loop_apply O slots 995 _ _ 3 [] hf3 (by decide) hb3,
    show (995 : Nat) = 994 + 1 from rfl,
    sync_loop_stop_late O slots 994 _ 4 [] hf4 (by omega)]
  simp [Board.push, hstack]

/-- Witness for C5 on the concrete channel `slotsClean` and the concrete
oracle. -/
theorem C5_witness :
    (get_previous_moves demoO slotsClean demoBoard).1 = 4 ∧
    (get_previous_moves demoO slotsClean demoBoard).2.1.move_stack =
      ["e2e4", "e7e5", "g1f3"] :=
  C5_resync_three_moves demoO slotsClean demoBoard "e2e4" "e7e5" "g1f3" rfl
    rfl rfl rfl rfl rfl rfl rfl

/-- One tick of `_handle_manual_move` with the gate key asserted: it advances
the move number by one and pushes exactly the suggested move. -/
theorem handle_manual_move_key [DecidableEq Move] (O : Oracle Pos Move)
    (show_arrow : Bool) (move : Move) (n : Nat) (s : GameState Pos Move) :
    (handle_manual_move O show_arrow true move n s).2.1 = n + 1 ∧
    (handle_manual_move O show_arrow true move n s).1.board.move_stack =
      s.board.move_stack ++ [move] := by
  simp only [handle_manual_move]
  split_ifs <;> simp [Board.push]

/-- One tick of `_handle_manual_move` with the gate key not asserted: the board
and the move number are untouched, the suggestion is recorded, at most the
arrow is drawn, and a tick that starts from an already-recorded suggestion
(with the arrow already drawn whenever arrows are enabled) is a strict
no-op. -/
theorem handle_manual_move_nokey [DecidableEq Move] (O : Oracle Pos Move)
    (show_arrow : Bool) (move : Move) (n : Nat) (s : GameState Pos Move) :
    (handle_manual_move O show_arrow false move n s).2.1 = n ∧
    (handle_manual_move O show_arrow false move n s).1.board = s.board ∧
    (handle_manual_move O show_arrow false move n s).1.current_suggestion = some move ∧
    (show_arrow = true → (handle_manual_move O show_arrow false move n s).1.arrow_drawn = true) ∧
    ((handle_manual_move O show_arrow false move n s).2.2 = [] ∨
      (handle_manual_move O show_arrow false move n s).2.2 = [.drawArrow move]) ∧
    (s.current_suggestion = some move → (show_arrow = true → s.arrow_drawn = true) →
      handle_manual_move O show_arrow false move n s = (s, n, [])) := by
  by_cases hs : s.current_suggestion = some move <;>
    cases ha : s.arrow_drawn <;> cases show_arrow <;>
      simp_all [handle_manual_move]

/-- One tick of `_handle_our_turn` either advances the move number by exactly
one while pushing exactly one move, or leaves both the move number and the
board unchanged. -/
theorem handle_our_turn_step [DecidableEq Move] (O : Oracle Pos Move)
    (slots : Slots) (engine : Pos → Move) (autoplay show_arrow key_pressed : Bool)
    (s : GameState Pos Move) (n : Nat) :
    ((handle_our_turn O slots engine autoplay show_arrow key_pressed s n).2.1 = n + 1 ∧
      ∃ m, (handle_our_turn O slots engine autoplay show_arrow key_pressed s n).1.board.move_stack =
        s.board.move_stack ++ [m]) ∨
    ((handle_our_turn O slots engine autoplay show_arrow key_pressed s n).2.1 = n ∧
      (handle_our_turn O slots engine autoplay show_arrow key_pressed s n).1.board = s.board) := by
  cases hc : check_for_move slots n with
  | some t =>
    cases hp : O.parse_san s.board.pos t with
    | some m =>
      left
      simp [handle_our_turn, hc, validate_and_push_move_some O s.board t n true m hp,
        Board.push]
    | none =>
      right
      simp [handle_our_turn, hc, validate_and_push_move_none O s.board t n true hp]
  | none =>
    cases autoplay with
    | true =>
      left
      simp [handle_our_turn, hc, execute_auto_move, Board.push]
    | false =>
      cases key_pressed with
      | true =>
        left
        have h := handle_manual_move_key O show_arrow (engine s.board.pos) n s
        simp only [handle_our_turn, hc, Bool.false_eq_true, if_false]
        exact ⟨h.1, engine s.board.pos, h.2⟩
      | false =>
        right
        have h := handle_manual_move_nokey O show_arrow (engine s.board.pos) n s
        simp only [handle_our_turn, hc, Bool.false_eq_true, if_false]
        exact ⟨h.1, h.2.1⟩

/-- One tick of `_handle_opponent_turn` either advances the move number by
exactly one while pushing exactly one move, or leaves both unchanged. -/
theorem handle_opponent_turn_step (O : Oracle Pos Move) (slots : Slots)
    (s : GameState Pos Move) (n : Nat) :
    ((handle_opponent_turn O slots s n).2.1 = n + 1 ∧
      ∃ m, (handle_opponent_turn O slots s n).1.board.move_stack =
        s.board.move_stack ++ [m]) ∨
    ((handle_opponent_turn O slots s n).2.1 = n ∧
      (handle_opponent_turn O slots s n).1.board = s.board) := by
  cases hc : check_for_move slots n with
  | some t =>
    cases hp : O.parse_san s.board.pos t with
    | some m =>
      left
      simp [handle_opponent_turn, hc, validate_and_push_move_some O s.board t n false m hp,
        Board.push]
    | none =>
      right
      simp [handle_opponent_turn, hc, validate_and_push_move_none O s.board t n false hp]
  | none =>
    right
    simp [handle_opponent_turn, hc]

/-- C3 (amended): each turn handler preserves the quantity
`move_number - len(history)` — it increments the move number by exactly 1
exactly when it pushes exactly one move onto the board, and otherwise leaves
both unchanged; hence the equality `move_number - 1 = len(history)` is
preserved by every iteration of the Playing loop whenever it holds at entry. -/
theorem C3_handlers_preserve_counter [DecidableEq Move] (O : Oracle Pos Move)
    (slots : Slots) (engine : Pos → Move) (autoplay show_arrow key_pressed : Bool)
    (s : GameState Pos Move) (n : Nat) :
    (((handle_our_turn O slots engine autoplay show_arrow key_pressed s n).2.1 = n + 1 ∧
      ∃ m, (handle_our_turn O slots engine autoplay show_arrow key_pressed s n).1.board.move_stack =
        s.board.move_stack ++ [m]) ∨
     ((handle_our_turn O slots engine autoplay show_arrow key_pressed s n).2.1 = n ∧
      (handle_our_turn O slots engine autoplay show_arrow key_pressed s n).1.board = s.board)) ∧
    (handle_our_turn O slots engine autoplay show_arrow key_pressed s n).2.1 +
      s.board.move_stack.length =
      n + (handle_our_turn O slots engine autoplay show_arrow key_pressed s n).1.board.move_stack.length ∧
    (((handle_opponent_turn O slots s n).2.1 = n + 1 ∧
      ∃ m, (handle_opponent_turn O slots s n).1.board.move_stack =
        s.board.move_stack ++ [m]) ∨
     ((handle_opponent_turn O slots s n).2.1 = n ∧
      (handle_opponent_turn O slots s n).1.board = s.board)) ∧
    (handle_opponent_turn O slots s n).2.1 + s.board.move_stack.length =
      n + (handle_opponent_turn O slots s n).1.board.move_stack.length := by
  have h1 := handle_our_turn_step O slots engine autoplay show_arrow key_pressed s n
  have h2 := handle_opponent_turn_step O slots s n
  refine ⟨h1, ?_, h2, ?_⟩
  · rcases h1 with ⟨hn, m, hm⟩ | ⟨hn, hb⟩
    · rw [hn, hm]; simp; omega
    · rw [hn, hb]
  · rcases h2 with ⟨hn, m, hm⟩ | ⟨hn, hb⟩
    · rw [hn, hm]; simp; omega
    · rw [hn, hb]

/-- C3 (counterexample): the equality `move_number - 1 = len(history)` need not
hold at the start of the first iteration of the Playing loop: on a channel with
a "..." placeholder at ply 2, `get_previous_moves` (which seeds `move_number`
before the loop) returns 4 with only 2 moves in the history. -/
theorem C3_counterexample :
    (get_previous_moves demoO slotsPlaceholder demoBoard).1 ≠
      (get_previous_moves demoO slotsPlaceholder demoBoard).2.1.move_stack.length + 1 ∧
    (get_previous_moves demoO slotsPlaceholder demoBoard).1 = 4 ∧
    (get_previous_moves demoO slotsPlaceholder demoBoard).2.1.move_stack.length = 2 := by
  decide

/-- C6: whenever the interface-derived turn check is definite (`some`),
`GameManager._is_our_turn` returns that boolean — even against the
board-derived signal — and only on `none` does it fall back to the
board-derived value (`board.turn` matching our color). -/
theorem C6_interface_precedence :
    ∀ (it white_to_move : Bool) (our_color : String),
      is_our_turn (some it) white_to_move our_color = it ∧
      is_our_turn none white_to_move "W" = white_to_move ∧
      is_our_turn none white_to_move "B" = !white_to_move := by
  intro it w c
  refine ⟨?_, ?_, ?_⟩
  · simp [is_our_turn]
  · cases w <;> rfl
  · cases w <;> rfl

/-- C9: every move submission performs the three actions on the move input
element in exactly the order: send a return keystroke, clear the input, then
type the move text — in `execute_move` itself and in both the autoplay and the
gate-confirmed manual paths that invoke it. -/
theorem C9_submit_protocol_order [DecidableEq Move] (O : Oracle Pos Move)
    (move : Move) (move_number : Nat) (s : GameState Pos Move) (show_arrow : Bool) :
    (execute_move_actions move).filter Action.isInput =
      [Action.inputReturn, Action.inputClear, Action.inputType move] ∧
    (execute_auto_move O show_arrow move move_number s).2.2.filter Action.isInput =
      [Action.inputReturn, Action.inputClear, Action.inputType move] ∧
    (handle_manual_move O show_arrow true move move_number s).2.2.filter Action.isInput =
      [Action.inputReturn, Action.inputClear, Action.inputType move] := by
  refine ⟨rfl, ?_, ?_⟩
  · cases show_arrow <;>
      simp [execute_auto_move, execute_move_actions, Action.isInput]
  · simp only [handle_manual_move]
    split_ifs <;>
      simp [execute_move_actions, Action.isInput]

/-- A state whose recorded suggestion is the current move (with the arrow
already drawn whenever arrows are enabled) is a fixed point of the gated
manual-move tick: any number of further ticks is a strict no-op. -/
theorem iterate_manual_gated_fixed [DecidableEq Move] (O : Oracle Pos Move)
    (show_arrow : Bool) (move : Move) :
    ∀ (k : Nat) (s : GameState Pos Move) (n : Nat),
      s.current_suggestion = some move → (show_arrow = true → s.arrow_drawn = true) →
      iterate_manual_gated O show_arrow move k s n = (s, n, []) := by
  intro k
  induction k with
  | zero => intro s n _ _; rfl
  | succ k ih =>
    intro s n hs ha
    have h := (handle_manual_move_nokey O show_arrow move n s).2.2.2.2.2 hs ha
    simp [iterate_manual_gated, h, ih s n hs ha]

/-- C7: in gated (non-autoplay) mode, any number of `_handle_manual_move` ticks
with the same suggested move and the gate key never asserted never pushes a
move onto the board, performs no action on the move input element, draws the
suggestion arrow at most once in total, and returns the move number unchanged
every time. -/
theorem C7_gated_idempotent [DecidableEq Move] (O : Oracle Pos Move)
    (show_arrow : Bool) (move : Move) (k : Nat) (s : GameState Pos Move) (n : Nat) :
    (iterate_manual_gated O show_arrow move k s n).1.board = s.board ∧
    (iterate_manual_gated O show_arrow move k s n).2.1 = n ∧
    (iterate_manual_gated O show_arrow move k s n).2.2.filter Action.isInput = [] ∧
    ((iterate_manual_gated O show_arrow move k s n).2.2.filter Action.isDraw).length ≤ 1 := by
  cases k with
  | zero => exact ⟨rfl, rfl, rfl, Nat.zero_le 1⟩
  | succ k =>
    have h := handle_manual_move_nokey O show_arrow move n s
    have hfix := iterate_manual_gated_fixed O show_arrow move k
      (handle_manual_move O show_arrow false move n s).1
      (handle_manual_move O show_arrow false move n s).2.1
      h.2.2.1 h.2.2.2.1
    simp only [iterate_manual_gated, hfix]
    rcases h.2.2.2.2.1 with hd | hd <;>
      simp [hd, Action.isInput, Action.isDraw, h.1, h.2.1]

/-- C8: on our turn, if a move text is already observed at the current move
number, `_handle_our_turn` absorbs it through `validate_and_push_move`
(advancing exactly on success, unchanged on failure) and never consults the
engine nor draws a fresh suggestion for that ply; the engine is queried
exactly once when, and only when, no move text is observed. -/
theorem C8_check_before_ask [DecidableEq Move] (O : Oracle Pos Move) (slots : Slots)
    (engine : Pos → Move) (autoplay show_arrow key_pressed : Bool)
    (s : GameState Pos Move) (n : Nat) :
    ((handle_our_turn O slots engine autoplay show_arrow key_pressed s n).2.2.filter
        Action.isEngineQuery).length =
      (if (check_for_move slots n).isSome then 0 else 1) ∧
    (∀ t, check_for_move slots n = some t →
      (handle_our_turn O slots engine autoplay show_arrow key_pressed s n).1.board =
        (validate_and_push_move O s.board t n true).2.1 ∧
      (handle_our_turn O slots engine autoplay show_arrow key_pressed s n).2.1 =
        (if (validate_and_push_move O s.board t n true).1 then n + 1 else n) ∧
      (handle_our_turn O slots engine autoplay show_arrow key_pressed s n).2.2.filter
        Action.isDraw = []) := by
  cases hc : check_for_move slots n with
  | some t =>
    constructor
    · cases hp : O.parse_san s.board.pos t with
      | some m =>
        simp [handle_our_turn, hc,
          validate_and_push_move_some O s.board t n true m hp, Action.isEngineQuery]
      | none =>
        simp [handle_our_turn, hc,
          validate_and_push_move_none O s.board t n true hp, Action.isEngineQuery]
    · intro t' ht'
      cases ht'
      cases hp : O.parse_san s.board.pos t with
      | some m =>
        simp [handle_our_turn, hc,
          validate_and_push_move_some O s.board t n true m hp, Action.isDraw]
      | none =>
        simp [handle_our_turn, hc,
          validate_and_push_move_none O s.board t n true hp, Action.isDraw]
  | none =>
    constructor
    · cases autoplay with
      | true =>
        cases show_arrow <;>
          simp [handle_our_turn, hc, execute_auto_move, execute_move_actions,
            Action.isEngineQuery]
      | false =>
        cases key_pressed with
        | true =>
          simp only [handle_our_turn, hc, Option.isSome_none, Bool.false_eq_true,
            if_false, handle_manual_move]
          split_ifs <;> simp [execute_move_actions, Action.isEngineQuery]
        | false =>
          simp only [handle_our_turn, hc, Option.isSome_none, Bool.false_eq_true,
            if_false, handle_manual_move]
          split_ifs <;> simp [execute_move_actions, Action.isEngineQuery]
    · intro t ht
      cases ht

/-- Whenever the caller-supplied default lies in `[0.1, 10.0]`,
`_get_delay_value` stays in `[0.1, 10.0]` on every configuration. -/
theorem get_delay_value_range (c : DelayConfig) (key : String) (d : ℚ)
    (hd1 : 1/10 ≤ d) (hd2 : d ≤ 10) :
    1/10 ≤ get_delay_value c key d ∧ get_delay_value c key d ≤ 10 := by
  unfold get_delay_value
  cases h : c.parse_float (config_get c key (c.float_str d)) with
  | none =>
    simp only [h]
    exact ⟨hd1, hd2⟩
  | some q =>
    simp only [h]
    exact ⟨le_max_left _ _, max_le (by norm_num) (min_le_left _ _)⟩

/-- C10: for every humanization delay key whose configured string parses as a
float, `_get_delay_value` returns that value clamped to `[0.1, 10.0]`, and the
caller-supplied default otherwise; consequently all components of
`get_general_delays`, `get_moving_delays` and `get_thinking_delays` lie in
`[0.1, 10.0]`. -/
theorem C10_delay_clamping (c : DelayConfig) :
    (∀ key d s, c.humanization key = some s →
      (∀ q, c.parse_float s = some q →
        get_delay_value c key d = max (1/10) (min 10 q) ∧
        1/10 ≤ get_delay_value c key d ∧ get_delay_value c key d ≤ 10) ∧
      (c.parse_float s = none → get_delay_value c key d = d)) ∧
    (1/10 ≤ (get_general_delays c).1 ∧ (get_general_delays c).1 ≤ 10 ∧
     1/10 ≤ (get_general_delays c).2 ∧ (get_general_delays c).2 ≤ 10 ∧
     1/10 ≤ (get_moving_delays c).1 ∧ (get_moving_delays c).1 ≤ 10 ∧
     1/10 ≤ (get_moving_delays c).2 ∧ (get_moving_delays c).2 ≤ 10 ∧
     1/10 ≤ (get_thinking_delays c).1 ∧ (get_thinking_delays c).1 ≤ 10 ∧
     1/10 ≤ (get_thinking_delays c).2 ∧ (get_thinking_delays c).2 ≤ 10) := by
  constructor
  · intro key d s hs
    have hv : config_get c key (c.float_str d) = s := by simp [config_get, hs]
    constructor
    · intro q hq
      have he : get_delay_value c key d = max (1/10) (min 10 q) := by
        unfold get_delay_value
        simp only [hv, hq]
      refine ⟨he, ?_, ?_⟩
      · rw [he]; exact le_max_left _ _
      · rw [he]; exact max_le (by norm_num) (min_le_left _ _)
    · intro hq
      unfold get_delay_value
      simp only [hv, hq]
  · refine ⟨?_, ?_, ?_, ?_, ?_, ?_, ?_, ?_, ?_, ?_, ?_, ?_⟩
    · exact (get_delay_value_range c "min-delay" (3/10) (by norm_num) (by norm_num)).1
    · exact (get_delay_value_range c "min-delay" (3/10) (by norm_num) (by norm_num)).2
    · exact (get_delay_value_range c "max-delay" (9/5) (by norm_num) (by norm_num)).1
    · exact (get_delay_value_range c "max-delay" (9/5) (by norm_num) (by norm_num)).2
    · exact (get_delay_value_range c "moving-min-delay" (1/2) (by norm_num) (by norm_num)).1
    · exact (get_delay_value_range c "moving-min-delay" (1/2) (by norm_num) (by norm_num)).2
    · exact (get_delay_value_range c "moving-max-delay" (5/2) (by norm_num) (by norm_num)).1
    · exact (get_delay_value_range c "moving-max-delay" (5/2) (by norm_num) (by norm_num)).2
    · exact (get_delay_value_range c "thinking-min-delay" (4/5) (by norm_num) (by norm_num)).1
    · exact (get_delay_value_range c "thinking-min-delay" (4/5) (by norm_num) (by norm_num)).2
    · exact (get_delay_value_range c "thinking-max-delay" 3 (by norm_num) (by norm_num)).1
    · exact (get_delay_value_range c "thinking-max-delay" 3 (by norm_num) (by norm_num)).2

/-- Witness for C10 on the concrete configuration `demoDelayConfig`: the
configured "0.25" parses and is returned clamped (and in range), while the
configured "abc" fails to parse and yields the caller default. -/
theorem C10_witness :
    (get_delay_value demoDelayConfig "min-delay" (3/10) = max (1/10) (min 10 (1/4)) ∧
      1/10 ≤ get_delay_value demoDelayConfig "min-delay" (3/10) ∧
      get_delay_value demoDelayConfig "min-delay" (3/10) ≤ 10) ∧
    get_delay_value demoDelayConfig "max-delay" (9/5) = 9/5 := by
  have h := C10_delay_clamping demoDelayConfig
  exact ⟨(h.1 "min-delay" (3/10) "0.25" rfl).1 (1/4) rfl,
    (h.1 "max-delay" (9/5) "abc" rfl).2 rfl⟩

/-- Witness for C8 on the concrete channel `slotsClean` at move number 1,
where "e4" is already observed. -/
theorem C8_witness :
    ((handle_our_turn demoO slotsClean (fun _ => "x") true true false
        ⟨demoBoard, none, false⟩ 1).2.2.filter Action.isEngineQuery).length =
      (if (check_for_move slotsClean 1).isSome then 0 else 1) ∧
    ((handle_our_turn demoO slotsClean (fun _ => "x") true true false
        ⟨demoBoard, none, false⟩ 1).1.board =
      (validate_and_push_move demoO demoBoard "e4" 1 true).2.1 ∧
     (handle_our_turn demoO slotsClean (fun _ => "x") true true false
        ⟨demoBoard, none, false⟩ 1).2.1 =
      (if (validate_and_push_move demoO demoBoard "e4" 1 true).1 then 1 + 1 else 1) ∧
     (handle_our_turn demoO slotsClean (fun _ => "x") true true false
        ⟨demoBoard, none, false⟩ 1).2.2.filter Action.isDraw = []) := by
  have h := C8_check_before_ask demoO slotsClean (fun _ => "x") true true false
    ⟨demoBoard, none, false⟩ 1
  exact ⟨h.1, h.2 "e4" rfl⟩

end HelpingHand
